import Mathlib

/-!
Shallow embedding of `bpf/process/bpf_execve_bprm_commit_creds.c`
(the `tg_kp_bprm_committing_creds` kprobe of Tetragon).

The C program, on the kernel's credential-commit point for an exec:
looks up a scratch heap record, zeroes it, classifies privilege
escalation from `bprm->per_clear` and the pending vs current creds,
extracts the binary's inode identity and (when resolvable) mount
information, and commits the record to the thread-keyed join cache
exactly when it is deemed cache-worthy.
-/

namespace ExecCreds

/-- `EXEC_SETUID` escalation flag bit. Modelled from the spec: the
constant lives in the repository's `process.h` header, which is not
part of the provided sources; the spec describes `secureexecFlags` as
a bitset with two distinct flags `SETUID` and `SETGID`. -/
def EXEC_SETUID : Nat := 1

/-- `EXEC_SETGID` escalation flag bit. Modelled from the spec: see
`EXEC_SETUID`; the two bits are distinct. -/
def EXEC_SETGID : Nat := 2

/-- `struct msg_inode`: the extracted binary identity. -/
structure MsgInode where
  i_ino : Nat
  i_nlink : Nat
deriving DecidableEq, Repr

/-- `struct msg_mount`: device id and filesystem type name buffer
(`char type[...]`, of which the program writes at most 7 bytes). -/
structure MsgMount where
  s_dev : Nat
  type : List Nat
deriving DecidableEq, Repr

/-- `struct msg_execve_info`: the record built in the scratch heap and
possibly committed to the join cache. -/
structure MsgExecveInfo where
  secureexec : Nat
  inode : MsgInode
  mount : MsgMount
  isset : Nat
deriving DecidableEq, Repr

/-- The all-zero `msg_execve_info`, as produced by
`memset(&heap->info, 0, sizeof(struct msg_execve_info))`.
The 7-byte `type` buffer is zero-filled. -/
def zeroInfo : MsgExecveInfo :=
  { secureexec := 0
    inode := { i_ino := 0, i_nlink := 0 }
    mount := { s_dev := 0, type := List.replicate 7 0 }
    isset := 0 }

/-- `struct cred` fields read from `bprm->cred`: the pending effective
user and group ids (`euid.val`, `egid.val`). -/
structure BprmCred where
  euid : Nat
  egid : Nat
deriving DecidableEq, Repr

/-- `struct super_block` fields read by the program: `s_dev` and the
filesystem type name `s_type->name` (a C string pointer, possibly
null, here a possibly-absent list of bytes). -/
structure SuperBlock where
  s_dev : Nat
  s_type_name : Option (List Nat)
deriving DecidableEq, Repr

/-- `struct inode` fields read by the program: `i_ino`, `__i_nlink`
and the owning superblock pointer `i_sb` (possibly null). -/
structure Inode where
  i_ino : Nat
  i_nlink : Nat
  i_sb : Option SuperBlock
deriving DecidableEq, Repr

/-- `struct linux_binprm` fields read by the program: the `per_clear`
personality flags, the pending credentials and the file's inode
(`bprm->file->f_inode`). -/
structure LinuxBinprm where
  per_clear : Nat
  cred : BprmCred
  file_inode : Inode
deriving DecidableEq, Repr

/-- The current task's credentials read via `get_current_task()`:
`task->cred->{uid,gid}.val`. -/
structure TaskCred where
  uid : Nat
  gid : Nat
deriving DecidableEq, Repr

/-- Program-visible state: the scratch heap slot (`execve_heap` at key
zero; `none` models allocator lookup failure) and the thread-keyed
join cache (`execve_joined_info_map`). -/
structure ProgState where
  execve_heap : Option MsgExecveInfo
  joined : Nat → Option MsgExecveInfo

/-- `probe_read_str(dest, size, src)`: copies bytes of the
NUL-terminated source string, at most `size - 1` of them, then writes
a terminating 0; bytes of `dest` past the terminator are untouched. -/
def probe_read_str (dest : List Nat) (size : Nat) (src : List Nat) : List Nat :=
  let copied := (src.takeWhile (fun b => b ≠ 0)).take (size - 1)
  copied ++ 0 :: dest.drop (copied.length + 1)

/-- The privilege-escalation classification of lines 60–77: if
`per_clear` is zero the flags stay empty; otherwise `EXEC_SETUID` is
or-ed in when `euid ≠ uid` and `EXEC_SETGID` when `egid ≠ gid`. -/
def classify (per_clear euid egid uid gid : Nat) : Nat :=
  if per_clear ≠ 0 then
    let s1 := if euid ≠ uid then 0 ||| EXEC_SETUID else 0
    let s2 := if egid ≠ gid then s1 ||| EXEC_SETGID else s1
    s2
  else 0

/-- A classifier that always compares the pending effective ids with
the current real ids, with no `per_clear` gate. Modelled from the
spec's words for the refinement comparison in §4.3: "collapsing it to
always compare ids". -/
def classify_always_compare (_per_clear euid egid uid gid : Nat) : Nat :=
  let s1 := if euid ≠ uid then 0 ||| EXEC_SETUID else 0
  let s2 := if egid ≠ gid then s1 ||| EXEC_SETGID else s1
  s2

/-- The cache-worthiness test of line 97:
`heap->info.secureexec != 0 || (i_nlink == 0 && i_ino != 0)`. -/
def cacheWorthy (info : MsgExecveInfo) : Prop :=
  info.secureexec ≠ 0 ∨ (info.inode.i_nlink = 0 ∧ info.inode.i_ino ≠ 0)

instance (info : MsgExecveInfo) : Decidable (cacheWorthy info) := by
  unfold cacheWorthy; infer_instance

/-- The record as fully populated by one invocation, before the
caching decision: zeroed, then classified, then inode identity and
(when the superblock resolves) mount information filled in. -/
def buildInfo (bprm : LinuxBinprm) (task : TaskCred) : MsgExecveInfo :=
  let sec := classify bprm.per_clear bprm.cred.euid bprm.cred.egid task.uid task.gid
  let info1 := { zeroInfo with secureexec := sec }
  let nd := bprm.file_inode
  let info2 := { info1 with inode := { i_ino := nd.i_ino, i_nlink := nd.i_nlink } }
  match nd.i_sb with
  | none => info2
  | some sb =>
    let m1 := { info2.mount with s_dev := sb.s_dev }
    let m2 := match sb.s_type_name with
      | none => m1
      | some nm => { m1 with type := probe_read_str m1.type 7 nm }
    { info2 with mount := m2 }

/-- The body of `tg_kp_bprm_committing_creds`: heap lookup (early
return on failure), memset, classification, identity extraction,
mount extraction, and the conditional commit to the join cache keyed
by `tid` (from `get_current_pid_tgid()`), setting `isset = 1` on the
commit path. -/
def tg_kp_bprm_committing_creds (bprm : LinuxBinprm) (task : TaskCred)
    (tid : Nat) (st : ProgState) : ProgState :=
  match st.execve_heap with
  | none => st
  | some _ =>
    let info := buildInfo bprm task
    if cacheWorthy info then
      let final := { info with isset := 1 }
      { execve_heap := some final
        joined := fun k => if k = tid then some final else st.joined k }
    else
      { st with execve_heap := some info }

/-! ### Helper lemmas -/

lemma run_worthy (bprm : LinuxBinprm) (task : TaskCred) (tid : Nat)
    (h : MsgExecveInfo) (j : Nat → Option MsgExecveInfo)
    (hw : cacheWorthy (buildInfo bprm task)) :
    tg_kp_bprm_committing_creds bprm task tid ⟨some h, j⟩ =
      ⟨some { buildInfo bprm task with isset := 1 },
        fun k => if k = tid then some { buildInfo bprm task with isset := 1 }
                 else j k⟩ := by
  simp only [tg_kp_bprm_committing_creds]
  rw [if_pos hw]

lemma run_not_worthy (bprm : LinuxBinprm) (task : TaskCred) (tid : Nat)
    (h : MsgExecveInfo) (j : Nat → Option MsgExecveInfo)
    (hw : ¬ cacheWorthy (buildInfo bprm task)) :
    tg_kp_bprm_committing_creds bprm task tid ⟨some h, j⟩ =
      ⟨some (buildInfo bprm task), j⟩ := by
  simp only [tg_kp_bprm_committing_creds]
  rw [if_neg hw]

lemma buildInfo_isset (bprm : LinuxBinprm) (task : TaskCred) :
    (buildInfo bprm task).isset = 0 := by
  rcases hsb : bprm.file_inode.i_sb with _ | sb
  · simp [buildInfo, hsb, zeroInfo]
  · rcases hnm : sb.s_type_name with _ | nm <;>
      simp [buildInfo, hsb, hnm, zeroInfo]

lemma cacheWorthy_isset (info : MsgExecveInfo) (x : Nat) :
    cacheWorthy { info with isset := x } ↔ cacheWorthy info := Iff.rfl

/-! ### Claim theorems -/

/-- C1: the record is committed to the join cache if and only if the
escalation flag set is non-empty or (extracted hard-link count = 0 and
extracted inode number ≠ 0); for every other combination no cache
write happens. In particular, for `per_clear = 0`, `i_nlink = 0`,
`i_ino = 42` the flags are empty but the record is cached. -/
theorem commit_iff_cacheWorthy :
    (∀ (bprm : LinuxBinprm) (task : TaskCred) (tid : Nat) (h : MsgExecveInfo)
        (j : Nat → Option MsgExecveInfo),
      ((buildInfo bprm task).secureexec ≠ 0 ∨
          ((buildInfo bprm task).inode.i_nlink = 0 ∧
            (buildInfo bprm task).inode.i_ino ≠ 0) →
        (tg_kp_bprm_committing_creds bprm task tid ⟨some h, j⟩).joined tid =
          some { buildInfo bprm task with isset := 1 }) ∧
      (¬ ((buildInfo bprm task).secureexec ≠ 0 ∨
          ((buildInfo bprm task).inode.i_nlink = 0 ∧
            (buildInfo bprm task).inode.i_ino ≠ 0)) →
        (tg_kp_bprm_committing_creds bprm task tid ⟨some h, j⟩).joined = j)) ∧
    ((buildInfo ⟨0, ⟨1000, 1000⟩, ⟨42, 0, none⟩⟩ ⟨1000, 1000⟩).secureexec = 0 ∧
      (tg_kp_bprm_committing_creds ⟨0, ⟨1000, 1000⟩, ⟨42, 0, none⟩⟩ ⟨1000, 1000⟩ 5
          ⟨some zeroInfo, fun _ => none⟩).joined 5 =
        some { buildInfo ⟨0, ⟨1000, 1000⟩, ⟨42, 0, none⟩⟩ ⟨1000, 1000⟩ with
                isset := 1 }) := by
  refine ⟨fun bprm task tid h j => ⟨fun hw => ?_, fun hw => ?_⟩, by decide, ?_⟩
  · rw [run_worthy bprm task tid h j hw]
    simp
  · rw [run_not_worthy bprm task tid h j hw]
  · rw [run_worthy _ _ _ _ _ (by decide)]
    simp

/-- C1 witness: the cache-worthy direction applied at a concrete
privileged input (per_clear = 1, euid 0 ≠ uid 1000). -/
theorem commit_iff_cacheWorthy_witness :
    (tg_kp_bprm_committing_creds ⟨1, ⟨0, 0⟩, ⟨7, 3, none⟩⟩ ⟨1000, 0⟩ 9
        ⟨some zeroInfo, fun _ => none⟩).joined 9 =
      some { buildInfo ⟨1, ⟨0, 0⟩, ⟨7, 3, none⟩⟩ ⟨1000, 0⟩ with isset := 1 } :=
  (commit_iff_cacheWorthy.1 ⟨1, ⟨0, 0⟩, ⟨7, 3, none⟩⟩ ⟨1000, 0⟩ 9 zeroInfo
    (fun _ => none)).1 (by decide)

/-- C2: with `per_clear = 0` the classifier short-circuits and the
escalation flag set stays empty, whatever the id values are. -/
theorem classify_proxy_zero_empty :
    (∀ euid egid uid gid : Nat, classify 0 euid egid uid gid = 0) ∧
    (∀ (bprm : LinuxBinprm) (task : TaskCred), bprm.per_clear = 0 →
      (buildInfo bprm task).secureexec = 0) := by
  constructor
  · intro euid egid uid gid
    simp [classify]
  · intro bprm task hpc
    rcases hsb : bprm.file_inode.i_sb with _ | sb
    · simp [buildInfo, hsb, classify, hpc, zeroInfo]
    · rcases hnm : sb.s_type_name with _ | nm <;>
        simp [buildInfo, hsb, hnm, classify, hpc, zeroInfo]

/-- C2 witness: a concrete input with `per_clear = 0` and mismatching
ids still yields an empty flag set. -/
theorem classify_proxy_zero_empty_witness :
    classify 0 0 0 1000 1000 = 0 ∧
    (buildInfo ⟨0, ⟨0, 0⟩, ⟨7, 3, none⟩⟩ ⟨1000, 1000⟩).secureexec = 0 :=
  ⟨classify_proxy_zero_empty.1 0 0 1000 1000,
    classify_proxy_zero_empty.2 ⟨0, ⟨0, 0⟩, ⟨7, 3, none⟩⟩ ⟨1000, 1000⟩ rfl⟩

/-- C3: with a non-zero `per_clear`, the `EXEC_SETUID` bit is set iff
the pending effective user id differs from the current real user id,
and the `EXEC_SETGID` bit iff the group ids differ — each bit
independently and only on its own mismatch. In particular
`per_clear = 1`, euid 0, uid 1000 sets `EXEC_SETUID` and the record
is cached. -/
theorem classify_setuid_setgid_iff :
    (∀ per_clear euid egid uid gid : Nat, per_clear ≠ 0 →
      (classify per_clear euid egid uid gid &&& EXEC_SETUID ≠ 0 ↔ euid ≠ uid) ∧
      (classify per_clear euid egid uid gid &&& EXEC_SETGID ≠ 0 ↔ egid ≠ gid)) ∧
    ((buildInfo ⟨1, ⟨0, 0⟩, ⟨7, 3, none⟩⟩ ⟨1000, 0⟩).secureexec &&&
        EXEC_SETUID ≠ 0 ∧
      (tg_kp_bprm_committing_creds ⟨1, ⟨0, 0⟩, ⟨7, 3, none⟩⟩ ⟨1000, 0⟩ 9
          ⟨some zeroInfo, fun _ => none⟩).joined 9 ≠ none) := by
  refine ⟨fun pc euid egid uid gid hpc => ?_, by decide, ?_⟩
  · simp only [classify, if_pos hpc]
    by_cases h1 : euid = uid <;> by_cases h2 : egid = gid <;>
      simp [h1, h2, EXEC_SETUID, EXEC_SETGID]
  · rw [run_worthy _ _ _ _ _ (by decide)]
    simp

/-- C3 witness: the iff applied at `per_clear = 1`, euid 0, uid 1000,
matching group ids. -/
theorem classify_setuid_setgid_iff_witness :
    (classify 1 0 0 1000 0 &&& EXEC_SETUID ≠ 0 ↔ (0 : Nat) ≠ 1000) ∧
    (classify 1 0 0 1000 0 &&& EXEC_SETGID ≠ 0 ↔ (0 : Nat) ≠ 0) :=
  classify_setuid_setgid_iff.1 1 0 0 1000 0 (by decide)

/-- C4: when the scratch heap lookup fails the program returns at once
and the whole state — heap slot and join cache — is unchanged. -/
theorem alloc_failure_noop :
    ∀ (bprm : LinuxBinprm) (task : TaskCred) (tid : Nat)
      (j : Nat → Option MsgExecveInfo),
      tg_kp_bprm_committing_creds bprm task tid ⟨none, j⟩ = ⟨none, j⟩ :=
  fun _ _ _ _ => rfl

/-- C5: the record's `isset` is 1 exactly on the cache-worthy branch,
where it is stored under the current thread id; on the other branch
`isset` stays 0 and the cache is untouched; and the invariant that
every cached record has `isset = 1` and is cache-worthy is
preserved. -/
theorem isset_iff_committed :
    ∀ (bprm : LinuxBinprm) (task : TaskCred) (tid : Nat) (h : MsgExecveInfo)
      (j : Nat → Option MsgExecveInfo),
      (buildInfo bprm task).isset = 0 ∧
      (cacheWorthy (buildInfo bprm task) →
        (tg_kp_bprm_committing_creds bprm task tid ⟨some h, j⟩).execve_heap =
          some { buildInfo bprm task with isset := 1 } ∧
        (tg_kp_bprm_committing_creds bprm task tid ⟨some h, j⟩).joined tid =
          some { buildInfo bprm task with isset := 1 }) ∧
      (¬ cacheWorthy (buildInfo bprm task) →
        (tg_kp_bprm_committing_creds bprm task tid ⟨some h, j⟩).execve_heap =
          some (buildInfo bprm task) ∧
        (tg_kp_bprm_committing_creds bprm task tid ⟨some h, j⟩).joined = j) ∧
      ((∀ k rec, j k = some rec → rec.isset = 1 ∧ cacheWorthy rec) →
        ∀ k rec,
          (tg_kp_bprm_committing_creds bprm task tid ⟨some h, j⟩).joined k =
            some rec →
          rec.isset = 1 ∧ cacheWorthy rec) := by
  intro bprm task tid h j
  refine ⟨buildInfo_isset bprm task, fun hw => ?_, fun hw => ?_, fun hj k rec hk => ?_⟩
  · rw [run_worthy bprm task tid h j hw]
    simp
  · rw [run_not_worthy bprm task tid h j hw]
    exact ⟨rfl, rfl⟩
  · by_cases hw : cacheWorthy (buildInfo bprm task)
    · rw [run_worthy bprm task tid h j hw] at hk
      by_cases hkt : k = tid
      · subst hkt
        dsimp only at hk
        rw [if_pos rfl] at hk
        injection hk with hk
        subst hk
        exact ⟨rfl, (cacheWorthy_isset _ _).mpr hw⟩
      · simp only [if_neg hkt] at hk
        exact hj k rec hk
    · rw [run_not_worthy bprm task tid h j hw] at hk
      exact hj k rec hk

/-- C5 witness: on a concrete cache-worthy input the heap record and
the cached record both carry `isset = 1`. -/
theorem isset_iff_committed_witness :
    (tg_kp_bprm_committing_creds ⟨1, ⟨0, 0⟩, ⟨7, 3, none⟩⟩ ⟨1000, 0⟩ 9
        ⟨some zeroInfo, fun _ => none⟩).execve_heap =
      some { buildInfo ⟨1, ⟨0, 0⟩, ⟨7, 3, none⟩⟩ ⟨1000, 0⟩ with isset := 1 } ∧
    (tg_kp_bprm_committing_creds ⟨1, ⟨0, 0⟩, ⟨7, 3, none⟩⟩ ⟨1000, 0⟩ 9
        ⟨some zeroInfo, fun _ => none⟩).joined 9 =
      some { buildInfo ⟨1, ⟨0, 0⟩, ⟨7, 3, none⟩⟩ ⟨1000, 0⟩ with isset := 1 } :=
  ((isset_iff_committed ⟨1, ⟨0, 0⟩, ⟨7, 3, none⟩⟩ ⟨1000, 0⟩ 9 zeroInfo
    (fun _ => none)).2.1 (by decide))

/-- C6 counterexample: the two-stage classifier and the
always-compare classifier disagree at `per_clear = 0`, euid 0,
uid 1000 — the short-circuit returns no flags while the id comparison
would set `EXEC_SETUID`, so the two are not observationally
equivalent on every input. -/
theorem two_stage_vs_always_compare_counterexample :
    classify 0 0 0 1000 0 ≠ classify_always_compare 0 0 0 1000 0 := by
  decide

/-- C6 amended: the two classifiers agree on every input where the
proxy flag is non-zero, and on every input where the ids match; they
can differ only when `per_clear = 0` and some id pair mismatches. -/
theorem two_stage_always_compare_agree :
    ∀ per_clear euid egid uid gid : Nat,
      (per_clear ≠ 0 →
        classify per_clear euid egid uid gid =
          classify_always_compare per_clear euid egid uid gid) ∧
      (euid = uid ∧ egid = gid →
        classify per_clear euid egid uid gid =
          classify_always_compare per_clear euid egid uid gid) := by
  intro pc euid egid uid gid
  constructor
  · intro hpc
    simp [classify, classify_always_compare, hpc]
  · rintro ⟨h1, h2⟩
    by_cases hpc : pc = 0 <;>
      simp [classify, classify_always_compare, hpc, h1, h2]

/-- C6 amended witness: agreement at a concrete non-zero proxy
flag. -/
theorem two_stage_always_compare_agree_witness :
    classify 1 0 0 1000 7 = classify_always_compare 1 0 0 1000 7 :=
  (two_stage_always_compare_agree 1 0 0 1000 7).1 (by decide)

lemma takeWhile_append_zero (l rest : List Nat) (h : ∀ x ∈ l, x ≠ 0) :
    (l ++ 0 :: rest).takeWhile (fun b => b ≠ 0) = l := by
  induction l with
  | nil => simp [List.takeWhile]
  | cons a as ih =>
    have ha : a ≠ 0 := h a (List.mem_cons_self a as)
    have ih2 := ih fun x hx => h x (List.mem_cons_of_mem a hx)
    rw [List.cons_append, List.takeWhile_cons_of_pos (by simpa using ha), ih2]

lemma getD_append_zero (l rest : List Nat) :
    (l ++ 0 :: rest).getD l.length 1 = 0 := by
  induction l with
  | nil => rfl
  | cons a as ih => simpa using ih

lemma probe_read_str_zero_buf_props (nm : List Nat) :
    (probe_read_str (List.replicate 7 0) 7 nm).length = 7 ∧
    ((probe_read_str (List.replicate 7 0) 7 nm).takeWhile
        (fun b => b ≠ 0)).length ≤ 6 ∧
    (probe_read_str (List.replicate 7 0) 7 nm).getD
      ((probe_read_str (List.replicate 7 0) 7 nm).takeWhile
        (fun b => b ≠ 0)).length 1 = 0 := by
  have hcopy : ∀ x ∈ (nm.takeWhile (fun b => b ≠ 0)).take 6, x ≠ 0 := by
    intro x hx
    have hpx := List.mem_takeWhile_imp (List.take_subset 6 _ hx)
    simpa using hpx
  have hlen : ((nm.takeWhile (fun b => b ≠ 0)).take 6).length ≤ 6 :=
    List.length_take_le 6 _
  have hunfold : probe_read_str (List.replicate 7 0) 7 nm =
      (nm.takeWhile (fun b => b ≠ 0)).take 6 ++ 0 ::
        (List.replicate 7 0).drop
          (((nm.takeWhile (fun b => b ≠ 0)).take 6).length + 1) := rfl
  have htw := takeWhile_append_zero ((nm.takeWhile (fun b => b ≠ 0)).take 6)
    ((List.replicate 7 0).drop
      (((nm.takeWhile (fun b => b ≠ 0)).take 6).length + 1)) hcopy
  rw [hunfold, htw]
  refine ⟨?_, hlen, getD_append_zero _ _⟩
  simp only [List.length_append, List.length_cons, List.length_drop,
    List.length_replicate]
  omega

/-- C7: for every filesystem type name input (absent, empty, short or
over-long) the stored `type` buffer is exactly 7 bytes — the write
never goes out of bounds — holding at most 6 significant characters
followed by a 0 terminator; and the record the program leaves in the
heap carries exactly that buffer. -/
theorem fstype_truncation_bounded :
    ∀ (bprm : LinuxBinprm) (task : TaskCred),
      (buildInfo bprm task).mount.type.length = 7 ∧
      ((buildInfo bprm task).mount.type.takeWhile
          (fun b => b ≠ 0)).length ≤ 6 ∧
      (buildInfo bprm task).mount.type.getD
        ((buildInfo bprm task).mount.type.takeWhile
          (fun b => b ≠ 0)).length 1 = 0 ∧
      ∀ (tid : Nat) (h : MsgExecveInfo) (j : Nat → Option MsgExecveInfo),
        ∃ r,
          (tg_kp_bprm_committing_creds bprm task tid ⟨some h, j⟩).execve_heap =
            some r ∧
          r.mount.type = (buildInfo bprm task).mount.type := by
  intro bprm task
  have hty : (buildInfo bprm task).mount.type = List.replicate 7 0 ∨
      ∃ nm, (buildInfo bprm task).mount.type =
        probe_read_str (List.replicate 7 0) 7 nm := by
    rcases hsb : bprm.file_inode.i_sb with _ | sb
    · exact Or.inl (by simp [buildInfo, hsb, zeroInfo])
    · rcases hnm : sb.s_type_name with _ | nm
      · exact Or.inl (by simp [buildInfo, hsb, hnm, zeroInfo])
      · exact Or.inr ⟨nm, by simp [buildInfo, hsb, hnm, zeroInfo]⟩
  have hmain : (buildInfo bprm task).mount.type.length = 7 ∧
      ((buildInfo bprm task).mount.type.takeWhile
          (fun b => b ≠ 0)).length ≤ 6 ∧
      (buildInfo bprm task).mount.type.getD
        ((buildInfo bprm task).mount.type.takeWhile
          (fun b => b ≠ 0)).length 1 = 0 := by
    rcases hty with hz | ⟨nm, hp⟩
    · rw [hz]
      refine ⟨by simp, by simp [List.replicate, List.takeWhile_cons], ?_⟩
      simp [List.replicate, List.takeWhile_cons]
    · rw [hp]
      exact probe_read_str_zero_buf_props nm
  refine ⟨hmain.1, hmain.2.1, hmain.2.2, fun tid h j => ?_⟩
  by_cases hw : cacheWorthy (buildInfo bprm task)
  · exact ⟨{ buildInfo bprm task with isset := 1 },
      by rw [run_worthy bprm task tid h j hw], rfl⟩
  · exact ⟨buildInfo bprm task, by rw [run_not_worthy bprm task tid h j hw], rfl⟩

/-- C8: when the superblock is null the mount fields stay zero, and
relative to any run where the superblock resolves, only the mount
field differs — escalation flags, inode identity, `isset` and the
caching decision are untouched by mount resolution. -/
theorem missing_superblock_frame :
    ∀ (bprm : LinuxBinprm) (task : TaskCred),
      bprm.file_inode.i_sb = none →
      (buildInfo bprm task).mount = { s_dev := 0, type := List.replicate 7 0 } ∧
      ∀ sb : SuperBlock,
        (buildInfo { bprm with
            file_inode := { bprm.file_inode with i_sb := some sb } } task).secureexec
          = (buildInfo bprm task).secureexec ∧
        (buildInfo { bprm with
            file_inode := { bprm.file_inode with i_sb := some sb } } task).inode
          = (buildInfo bprm task).inode ∧
        (buildInfo { bprm with
            file_inode := { bprm.file_inode with i_sb := some sb } } task).isset
          = (buildInfo bprm task).isset ∧
        (cacheWorthy (buildInfo { bprm with
            file_inode := { bprm.file_inode with i_sb := some sb } } task) ↔
          cacheWorthy (buildInfo bprm task)) := by
  intro bprm task hsb
  refine ⟨by simp [buildInfo, hsb, zeroInfo], fun sb => ?_⟩
  have hsec : (buildInfo { bprm with
      file_inode := { bprm.file_inode with i_sb := some sb } } task).secureexec
        = (buildInfo bprm task).secureexec := by
    simp [buildInfo, hsb]
  have hinode : (buildInfo { bprm with
      file_inode := { bprm.file_inode with i_sb := some sb } } task).inode
        = (buildInfo bprm task).inode := by
    simp [buildInfo, hsb]
  have hisset : (buildInfo { bprm with
      file_inode := { bprm.file_inode with i_sb := some sb } } task).isset
        = (buildInfo bprm task).isset := by
    simp [buildInfo, hsb, zeroInfo]
  refine ⟨hsec, hinode, hisset, ?_⟩
  unfold cacheWorthy
  rw [hsec, hinode]

/-- C8 witness: the frame property applied at a concrete input with a
null superblock and a concrete resolvable superblock. -/
theorem missing_superblock_frame_witness :
    (buildInfo ⟨1, ⟨0, 0⟩, ⟨7, 3, none⟩⟩ ⟨1000, 0⟩).mount =
      { s_dev := 0, type := List.replicate 7 0 } ∧
    (buildInfo ⟨1, ⟨0, 0⟩, ⟨7, 3, some ⟨5, some [1, 2]⟩⟩⟩ ⟨1000, 0⟩).secureexec =
      (buildInfo ⟨1, ⟨0, 0⟩, ⟨7, 3, none⟩⟩ ⟨1000, 0⟩).secureexec :=
  ⟨(missing_superblock_frame ⟨1, ⟨0, 0⟩, ⟨7, 3, none⟩⟩ ⟨1000, 0⟩ rfl).1,
    ((missing_superblock_frame ⟨1, ⟨0, 0⟩, ⟨7, 3, none⟩⟩ ⟨1000, 0⟩ rfl).2
      ⟨5, some [1, 2]⟩).1⟩

/-- C9: when the superblock resolves but its filesystem type name
pointer is null, the device id is still stored while the type buffer
stays all zero — the mount information is partially present. -/
theorem null_fstype_name_partial_mount :
    ∀ (bprm : LinuxBinprm) (task : TaskCred) (sb : SuperBlock),
      bprm.file_inode.i_sb = some sb → sb.s_type_name = none →
      (buildInfo bprm task).mount.s_dev = sb.s_dev ∧
      (buildInfo bprm task).mount.type = List.replicate 7 0 := by
  intro bprm task sb hsb hnm
  constructor <;> simp [buildInfo, hsb, hnm, zeroInfo]

/-- C9 witness: the partial-mount property at a concrete superblock
with device id 5 and a null type name. -/
theorem null_fstype_name_partial_mount_witness :
    (buildInfo ⟨0, ⟨0, 0⟩, ⟨7, 3, some ⟨5, none⟩⟩⟩ ⟨0, 0⟩).mount.s_dev = 5 ∧
    (buildInfo ⟨0, ⟨0, 0⟩, ⟨7, 3, some ⟨5, none⟩⟩⟩ ⟨0, 0⟩).mount.type =
      List.replicate 7 0 :=
  null_fstype_name_partial_mount ⟨0, ⟨0, 0⟩, ⟨7, 3, some ⟨5, none⟩⟩⟩ ⟨0, 0⟩
    ⟨5, none⟩ rfl rfl

/-- C10: the scratch record is zeroed before use, so two invocations
with equal inputs but different heap residue and different prior
caches build the same record, and either both commit that same record
or neither touches its cache — residue never reaches a stored
record. -/
theorem scratch_residue_independent :
    ∀ (bprm : LinuxBinprm) (task : TaskCred) (tid : Nat)
      (h1 h2 : MsgExecveInfo) (j1 j2 : Nat → Option MsgExecveInfo),
      (tg_kp_bprm_committing_creds bprm task tid ⟨some h1, j1⟩).execve_heap =
        (tg_kp_bprm_committing_creds bprm task tid ⟨some h2, j2⟩).execve_heap ∧
      (((tg_kp_bprm_committing_creds bprm task tid ⟨some h1, j1⟩).joined = j1 ∧
          (tg_kp_bprm_committing_creds bprm task tid ⟨some h2, j2⟩).joined = j2) ∨
        ((tg_kp_bprm_committing_creds bprm task tid ⟨some h1, j1⟩).joined tid =
            (tg_kp_bprm_committing_creds bprm task tid ⟨some h2, j2⟩).joined tid ∧
          (tg_kp_bprm_committing_creds bprm task tid ⟨some h1, j1⟩).joined tid =
            (tg_kp_bprm_committing_creds bprm task tid
              ⟨some h1, j1⟩).execve_heap)) := by
  intro bprm task tid h1 h2 j1 j2
  by_cases hw : cacheWorthy (buildInfo bprm task)
  · rw [run_worthy bprm task tid h1 j1 hw, run_worthy bprm task tid h2 j2 hw]
    exact ⟨rfl, Or.inr ⟨by simp, by simp⟩⟩
  · rw [run_not_worthy bprm task tid h1 j1 hw,
      run_not_worthy bprm task tid h2 j2 hw]
    exact ⟨rfl, Or.inl ⟨rfl, rfl⟩⟩

end ExecCreds
